import Mathlib

set_option maxHeartbeats 1000000

namespace ClamAV

/-!
Shallow embedding of the ClamAV connection pool and scan orchestration layer
(`server.js`).  Connections and waiters are identified by the order in which
they are created/enqueued, mirroring the `pool` array, `inUse` set and FIFO
`queue` of `ClamAVConnectionPool`.  The `served` and `enqueued` fields are
ghost logs recording, respectively, every (waiter, connection) handoff that
`release` performs and every waiter ever pushed onto the queue; they do not
influence control flow.
-/

/-- Connection handles, identified by creation order. -/
abbrev Conn := Nat

/-- Waiting acquirers, identified by arrival order. -/
abbrev Waiter := Nat

structure PoolState where
  pool : List Conn
  inUse : List Conn
  maxConnections : Nat
  queue : List Waiter
  maxQueueSize : Nat
  nextConn : Nat
  nextWaiter : Nat
  served : List (Waiter × Conn)
  enqueued : List Waiter
  deriving DecidableEq, Repr

/-- JS `Set.prototype.add`: insert the element when absent. -/
def setInsert (c : Nat) (l : List Nat) : List Nat :=
  if c ∈ l then l else c :: l

/-- JS `Set.prototype.delete`: remove the element. -/
def setDelete (c : Nat) (l : List Nat) : List Nat :=
  l.filter (fun x => x ≠ c)

/-- Error message thrown by `acquire` when the wait queue is full
(`server.js` line 126). -/
def poolFullMessage : String :=
  "Connection pool queue is full. Too many concurrent scan requests."

/-- Outcome of one `acquire()` call. -/
inductive AcquireResult where
  | granted (c : Conn)
  | queued (w : Waiter)
  | exhausted (msg : String)
  | createFailed
  deriving DecidableEq, Repr

/-- `ClamAVConnectionPool.acquire` (`server.js` lines 101-132): take the first
idle pooled connection; otherwise create a fresh one while below
`maxConnections` (`createOk` abstracts whether `_createConnection` succeeds);
otherwise reject when the queue is at capacity, else enqueue the caller. -/
def acquireFn (createOk : Bool) (s : PoolState) : AcquireResult × PoolState :=
  match s.pool.find? (fun c => !(s.inUse.contains c)) with
  | some c => (.granted c, { s with inUse := setInsert c s.inUse })
  | none =>
    if s.pool.length < s.maxConnections then
      if createOk then
        let c := s.nextConn
        (.granted c,
          { s with pool := s.pool ++ [c], inUse := setInsert c s.inUse,
                   nextConn := c + 1 })
      else (.createFailed, s)
    else if s.maxQueueSize ≤ s.queue.length then
      (.exhausted poolFullMessage, s)
    else
      let w := s.nextWaiter
      (.queued w,
        { s with queue := s.queue ++ [w], enqueued := s.enqueued ++ [w],
                 nextWaiter := w + 1 })

/-- `ClamAVConnectionPool.release` (`server.js` lines 134-143): drop the
in-use marker; when the queue is non-empty, shift its head waiter, re-mark
the connection in use and resolve the waiter with it. -/
def releaseFn (c : Conn) (s : PoolState) : PoolState :=
  match s.queue with
  | [] => { s with inUse := setDelete c s.inUse }
  | w :: rest =>
      { s with inUse := setInsert c (setDelete c s.inUse),
               queue := rest, served := s.served ++ [(w, c)] }

/-- `ClamAVConnectionPool.removeConnection` (`server.js` lines 146-153):
drop the in-use marker and splice the connection out of the pool array. -/
def removeConnectionFn (c : Conn) (s : PoolState) : PoolState :=
  { s with inUse := setDelete c s.inUse, pool := s.pool.erase c }

/-- Pool bookkeeping performed by the `scanStream` callback when the scan
errors (`server.js` lines 203-217): the connection is ALWAYS released first
(line 205), and only then, when the error is a transport error
(EPIPE/ECONNRESET), removed from the pool (line 212), before the error is
propagated via `reject`. -/
def scanStreamFailurePath (transient : Bool) (c : Conn) (s : PoolState) :
    PoolState :=
  let s1 := releaseFn c s
  if transient then removeConnectionFn c s1 else s1

/-- Pool operations visible to clients: `acquire` (with the creation outcome
it would observe) and `release`. -/
inductive Op where
  | acquire (createOk : Bool)
  | release (c : Conn)
  deriving DecidableEq, Repr

def step (s : PoolState) : Op → PoolState
  | .acquire ok => (acquireFn ok s).2
  | .release c => releaseFn c s

def run (s : PoolState) (ops : List Op) : PoolState :=
  ops.foldl step s

/-- A trace is valid when every `release` is applied to a connection that is
currently in the pool and marked in use (a previously acquired, un-evicted
connection). -/
def validOpsB (s : PoolState) : List Op → Bool
  | [] => true
  | op :: rest =>
    (match op with
     | .acquire _ => true
     | .release c => decide (c ∈ s.pool) && decide (c ∈ s.inUse))
    && validOpsB (step s op) rest

/-- Empty pool as built by the constructor (`server.js` lines 53-60). -/
def initState (maxConn maxQueue : Nat) : PoolState :=
  { pool := [], inUse := [], maxConnections := maxConn, queue := [],
    maxQueueSize := maxQueue, nextConn := 0, nextWaiter := 0,
    served := [], enqueued := [] }

/-- Structural well-formedness of a pool state. -/
structure WF (s : PoolState) : Prop where
  useSub : ∀ c ∈ s.inUse, c ∈ s.pool
  poolNodup : s.pool.Nodup
  useNodup : s.inUse.Nodup
  poolLe : s.pool.length ≤ s.maxConnections
  poolLt : ∀ c ∈ s.pool, c < s.nextConn

lemma mem_setInsert {x c : Nat} {l : List Nat} :
    x ∈ setInsert c l ↔ x = c ∨ x ∈ l := by
  unfold setInsert
  split
  · next h => exact ⟨fun hx => Or.inr hx, fun hx => hx.elim (fun e => e ▸ h) id⟩
  · simp [List.mem_cons]

lemma setInsert_nodup {c : Nat} {l : List Nat} (h : l.Nodup) :
    (setInsert c l).Nodup := by
  unfold setInsert
  split
  · exact h
  · next hc => exact List.Nodup.cons hc h

lemma mem_setDelete {x c : Nat} {l : List Nat} :
    x ∈ setDelete c l ↔ x ∈ l ∧ x ≠ c := by
  unfold setDelete
  simp

lemma setDelete_nodup {c : Nat} {l : List Nat} (h : l.Nodup) :
    (setDelete c l).Nodup :=
  List.Nodup.filter _ h

lemma initState_WF (maxConn maxQueue : Nat) : WF (initState maxConn maxQueue) := by
  refine ⟨?_, ?_, ?_, ?_, ?_⟩ <;> simp [initState]

lemma acquireFn_WF (ok : Bool) {s : PoolState} (h : WF s) :
    WF (acquireFn ok s).2 := by
  unfold acquireFn
  split
  · rename_i c hf
    have hc : c ∈ s.pool := List.mem_of_find?_eq_some hf
    refine ⟨?_, h.poolNodup, setInsert_nodup h.useNodup, h.poolLe, h.poolLt⟩
    intro x hx
    rcases mem_setInsert.mp hx with rfl | hx
    · exact hc
    · exact h.useSub x hx
  · split
    · rename_i hlt
      split
      · have hfresh : s.nextConn ∉ s.pool := fun hmem =>
          lt_irrefl _ (h.poolLt _ hmem)
        refine ⟨?_, ?_, setInsert_nodup h.useNodup, ?_, ?_⟩
        · intro x hx
          rcases mem_setInsert.mp hx with rfl | hx
          · simp
          · exact List.mem_append.mpr (Or.inl (h.useSub x hx))
        · refine List.Nodup.append h.poolNodup (List.nodup_singleton _) ?_
          intro a ha hb
          simp only [List.mem_singleton] at hb
          subst hb
          exact hfresh ha
        · simpa using hlt
        · intro x hx
          rcases List.mem_append.mp hx with hx | hx
          · exact Nat.lt_succ_of_lt (h.poolLt _ hx)
          · simp only [List.mem_singleton] at hx
            subst hx
            exact Nat.lt_succ_self _
      · exact h
    · split
      · exact h
      · exact ⟨h.useSub, h.poolNodup, h.useNodup, h.poolLe, h.poolLt⟩

lemma releaseFn_WF {s : PoolState} {c : Conn} (hc : c ∈ s.pool) (h : WF s) :
    WF (releaseFn c s) := by
  unfold releaseFn
  cases hq : s.queue with
  | nil =>
    refine ⟨?_, h.poolNodup, setDelete_nodup h.useNodup, h.poolLe, h.poolLt⟩
    intro x hx
    exact h.useSub x (mem_setDelete.mp hx).1
  | cons w rest =>
    refine ⟨?_, h.poolNodup, setInsert_nodup (setDelete_nodup h.useNodup),
      h.poolLe, h.poolLt⟩
    intro x hx
    rcases mem_setInsert.mp hx with rfl | hx
    · exact hc
    · exact h.useSub x (mem_setDelete.mp hx).1

lemma step_maxConnections (s : PoolState) (op : Op) :
    (step s op).maxConnections = s.maxConnections := by
  cases op with
  | acquire ok =>
    show ((acquireFn ok s).2).maxConnections = s.maxConnections
    unfold acquireFn
    repeat' split
    all_goals rfl
  | release c =>
    show (releaseFn c s).maxConnections = s.maxConnections
    unfold releaseFn
    repeat' split
    all_goals rfl

lemma run_maxConnections (ops : List Op) (s : PoolState) :
    (run s ops).maxConnections = s.maxConnections := by
  induction ops generalizing s with
  | nil => rfl
  | cons op rest ih =>
    show (run (step s op) rest).maxConnections = s.maxConnections
    rw [ih, step_maxConnections]

lemma run_WF {s : PoolState} (ops : List Op) (h : WF s)
    (hv : validOpsB s ops = true) : WF (run s ops) := by
  induction ops generalizing s with
  | nil => exact h
  | cons op rest ih =>
    simp only [validOpsB, Bool.and_eq_true] at hv
    refine ih ?_ hv.2
    cases op with
    | acquire ok => exact acquireFn_WF ok h
    | release c =>
      have hc : c ∈ s.pool := by
        have := hv.1
        simp only [Bool.and_eq_true, decide_eq_true_eq] at this
        exact this.1
      exact releaseFn_WF hc h

/-- FIFO accounting invariant: the arrival log equals the log of already
served waiters followed by the still-pending queue. -/
def QInv (s : PoolState) : Prop :=
  s.enqueued = s.served.map Prod.fst ++ s.queue

lemma step_QInv {s : PoolState} (h : QInv s) (op : Op) : QInv (step s op) := by
  cases op with
  | acquire ok =>
    show QInv (acquireFn ok s).2
    unfold acquireFn
    split
    · exact h
    · split
      · split
        · exact h
        · exact h
      · split
        · exact h
        · show s.enqueued ++ [s.nextWaiter]
            = s.served.map Prod.fst ++ (s.queue ++ [s.nextWaiter])
          rw [h, List.append_assoc]
  | release c =>
    show QInv (releaseFn c s)
    unfold releaseFn
    split
    · exact h
    · rename_i w rest hq
      show s.enqueued = (s.served ++ [(w, c)]).map Prod.fst ++ rest
      rw [h, hq, List.map_append, List.append_assoc]
      rfl

lemma run_QInv {s : PoolState} (ops : List Op) (h : QInv s) :
    QInv (run s ops) := by
  induction ops generalizing s with
  | nil => exact h
  | cons op rest ih =>
    exact ih (step_QInv h op)

lemma initState_QInv (maxConn maxQueue : Nat) :
    QInv (initState maxConn maxQueue) := rfl

/-- Pool state demonstrating claim C1: one pooled connection (0), in use by
the current scan, and one queued waiter (7). -/
def c1FailState : PoolState :=
  { pool := [0], inUse := [0], maxConnections := 5, queue := [7],
    maxQueueSize := 20, nextConn := 1, nextWaiter := 8, served := [],
    enqueued := [7] }

/-- C1: evaluation of the transport-failure path (`server.js` lines 203-217)
at `c1FailState`.  Because `release(conn)` runs unconditionally BEFORE the
EPIPE/ECONNRESET check calls `removeConnection(conn)`, the broken connection
0 is handed to queued waiter 7 (ghost log `served`), and only afterwards is
it evicted from the pool and the in-use set — the waiter keeps the poisoned
handle.  This refutes the claim that the failed connection is never handed
to any waiter. -/
theorem broken_connection_reaches_waiter_c1 :
    (scanStreamFailurePath true 0 c1FailState).served = [(7, 0)]
    ∧ (scanStreamFailurePath true 0 c1FailState).pool = []
    ∧ (scanStreamFailurePath true 0 c1FailState).inUse = [] := by decide

/-- C2: along every valid trace of `acquire`/`release` calls (each release
applied to a pooled, in-use connection), the number of in-use connections is
at most the pool size, which is at most `maxConnections`. -/
theorem inUse_le_pool_le_max_c2 (maxConn maxQueue : Nat) (ops : List Op)
    (hv : validOpsB (initState maxConn maxQueue) ops = true) :
    (run (initState maxConn maxQueue) ops).inUse.length
      ≤ (run (initState maxConn maxQueue) ops).pool.length
    ∧ (run (initState maxConn maxQueue) ops).pool.length ≤ maxConn := by
  have hwf : WF (run (initState maxConn maxQueue) ops) :=
    run_WF ops (initState_WF maxConn maxQueue) hv
  constructor
  · exact (List.subperm_of_subset hwf.useNodup
      (fun a ha => hwf.useSub a ha)).length_le
  · have hle := hwf.poolLe
    rwa [run_maxConnections] at hle

/-- Valid sample trace for the C2 witness: two creations, a release, a
re-acquire of the idle connection, and two final releases. -/
def c2OpsWitness : List Op :=
  [.acquire true, .acquire true, .release 0, .acquire true,
   .release 1, .release 0]

theorem inUse_le_pool_le_max_c2_witness :
    validOpsB (initState 5 20) c2OpsWitness = true
    ∧ ((run (initState 5 20) c2OpsWitness).inUse.length
        ≤ (run (initState 5 20) c2OpsWitness).pool.length
      ∧ (run (initState 5 20) c2OpsWitness).pool.length ≤ 5) :=
  ⟨by decide, inUse_le_pool_le_max_c2 5 20 c2OpsWitness (by decide)⟩

/-- C3: when the pool holds `maxConnections` connections, all of them in use,
and the wait queue is already at `maxQueueSize`, `acquire()` rejects
immediately with the pool-exhausted error (`server.js` lines 124-131),
leaving the state — in particular the queue — unchanged and suspending
nobody. -/
theorem acquire_poolExhausted_c3 (createOk : Bool) (s : PoolState)
    (hfull : s.pool.length = s.maxConnections)
    (hbusy : ∀ c ∈ s.pool, c ∈ s.inUse)
    (hqueue : s.maxQueueSize ≤ s.queue.length) :
    acquireFn createOk s = (.exhausted poolFullMessage, s) := by
  have hnone : s.pool.find? (fun c => !(s.inUse.contains c)) = none := by
    rw [List.find?_eq_none]
    intro c hc
    simp [hbusy c hc]
  unfold acquireFn
  rw [hnone]
  simp [hfull, hqueue]

/-- Saturated pool for the C3 witness: capacity 2, both connections in use,
queue at its capacity 3. -/
def c3StateWitness : PoolState :=
  { pool := [0, 1], inUse := [0, 1], maxConnections := 2, queue := [5, 6, 7],
    maxQueueSize := 3, nextConn := 2, nextWaiter := 8, served := [],
    enqueued := [5, 6, 7] }

theorem acquire_poolExhausted_c3_witness :
    (c3StateWitness.pool.length = c3StateWitness.maxConnections
      ∧ (∀ c ∈ c3StateWitness.pool, c ∈ c3StateWitness.inUse)
      ∧ c3StateWitness.maxQueueSize ≤ c3StateWitness.queue.length)
    ∧ acquireFn true c3StateWitness
        = (.exhausted poolFullMessage, c3StateWitness) :=
  ⟨⟨by decide, by decide, by decide⟩,
   acquire_poolExhausted_c3 true c3StateWitness (by decide) (by decide)
     (by decide)⟩

/-- C4: a `release` issued while the queue is non-empty dequeues exactly the
head waiter, keeps the connection marked in use (no idle state is observable
in the resulting state), and logs the handoff to that waiter; moreover along
any trace from an empty pool the arrival log equals the served log followed
by the pending queue, so queued waiters are served strictly in FIFO order. -/
theorem release_transfers_to_head_fifo_c4 :
    (∀ (s : PoolState) (c : Conn) (w : Waiter) (rest : List Waiter),
        s.queue = w :: rest →
        (releaseFn c s).queue = rest
        ∧ c ∈ (releaseFn c s).inUse
        ∧ (releaseFn c s).served = s.served ++ [(w, c)])
    ∧ ∀ (maxConn maxQueue : Nat) (ops : List Op),
        (run (initState maxConn maxQueue) ops).enqueued
          = (run (initState maxConn maxQueue) ops).served.map Prod.fst
            ++ (run (initState maxConn maxQueue) ops).queue := by
  constructor
  · intro s c w rest hq
    unfold releaseFn
    rw [hq]
    exact ⟨rfl, mem_setInsert.mpr (Or.inl rfl), rfl⟩
  · intro maxConn maxQueue ops
    exact run_QInv ops (initState_QInv maxConn maxQueue)

/-- Pool state for the C4 witness: connection 0 in use, waiters 7 and 8
queued in that order. -/
def c4StateWitness : PoolState :=
  { pool := [0], inUse := [0], maxConnections := 1, queue := [7, 8],
    maxQueueSize := 20, nextConn := 1, nextWaiter := 9, served := [],
    enqueued := [7, 8] }

/-- Trace for the C4 witness: capacity-1 pool, two acquires queue up, two
releases serve them in order. -/
def c4OpsWitness : List Op :=
  [.acquire true, .acquire true, .acquire true, .release 0, .release 0]

theorem release_transfers_to_head_fifo_c4_witness :
    ((releaseFn 0 c4StateWitness).queue = [8]
      ∧ 0 ∈ (releaseFn 0 c4StateWitness).inUse
      ∧ (releaseFn 0 c4StateWitness).served = [(7, 0)])
    ∧ (run (initState 1 20) c4OpsWitness).enqueued
        = (run (initState 1 20) c4OpsWitness).served.map Prod.fst
          ++ (run (initState 1 20) c4OpsWitness).queue := by
  refine ⟨?_, release_transfers_to_head_fifo_c4.2 1 20 c4OpsWitness⟩
  have h := release_transfers_to_head_fifo_c4.1 c4StateWitness 0 7 [8]
    (by decide)
  exact ⟨h.1, h.2.1, by simpa using h.2.2⟩

/-!
Interpretation of the daemon response (`server.js` lines 219-279).  The raw
object handed to the `scanStream` callback is loosely typed; the fields the
code inspects are normalized here.  Strings are treated over the character
set the daemon protocol emits (ASCII).
-/

/-- JS values that may appear in the loosely-typed `isInfected`/`infected`
fields of the daemon response object. -/
inductive JsVal where
  | undef
  | bool (b : Bool)
  | str (s : String)
  | num (n : Int)
  deriving DecidableEq, Repr

/-- Shape of the `virus` field: absent, a string, or an array of strings. -/
inductive VirusField where
  | undef
  | str (s : String)
  | arr (l : List String)
  deriving DecidableEq, Repr

/-- Normalized view of the object the `scanStream` callback receives.
`viruses` is `some` exactly when that field is present as an array (any
non-array value fails every `Array.isArray` guard in the code and behaves
like an absent field); `file` is `some` exactly when that field is present
as a string (the code guards it with `typeof object.file === 'string'`). -/
structure RawObject where
  resultString : Option String
  isInfected : JsVal
  infected : JsVal
  viruses : Option (List String)
  virus : VirusField
  file : Option String
  deriving DecidableEq, Repr

/-- JS truthiness of the `virus` field: absent and the empty string are
falsy; every array (even an empty one) is truthy. -/
def VirusField.truthy : VirusField → Bool
  | .undef => false
  | .str s => !(s == "")
  | .arr _ => true

/-- JS `.length` of the `virus` field. -/
def VirusField.len : VirusField → Nat
  | .undef => 0
  | .str s => s.length
  | .arr l => l.length

def charsBeginWith : List Char → List Char → Bool
  | [], _ => true
  | _ :: _, [] => false
  | p :: ps, c :: cs => p == c && charsBeginWith ps cs

def charsContains : List Char → List Char → Bool
  | [], needle => needle.isEmpty
  | c :: cs, needle => charsBeginWith needle (c :: cs) || charsContains cs needle

/-- JS `String.prototype.includes` (substring containment). -/
def jsIncludes (s pat : String) : Bool :=
  charsContains s.toList pat.toList

/-- JS regex class `\s` restricted to the characters relevant here: space,
tab, and the LF / VT / FF / CR controls. -/
def jsWhitespace (c : Char) : Bool :=
  c == ' ' || c == '\t' || c == '\n' || c == '\r'
    || c.toNat == 11 || c.toNat == 12

/-- Characters the regex `.` does not match (line terminators). -/
def jsLineTerm (c : Char) : Bool :=
  c == '\n' || c == '\r' || c.toNat == 8232 || c.toNat == 8233

/-- Greedy match of `\s*(.+)` against the given characters, returning the
capture group: consume as much whitespace as possible, backtracking the last
whitespace character into the leading `.` when nothing remains for `.+`. -/
def matchWsDotPlus : List Char → Option (List Char)
  | [] => none
  | c :: cs =>
    if jsWhitespace c then
      match matchWsDotPlus cs with
      | some cap => some cap
      | none =>
        if jsLineTerm c then none
        else some (c :: cs.takeWhile (fun d => !jsLineTerm d))
    else
      if jsLineTerm c then none
      else some (c :: cs.takeWhile (fun d => !jsLineTerm d))

/-- Case-insensitive match of the literal `FOUND:` at the head. -/
def foundColonAt (cs : List Char) : Bool :=
  (cs.take 6).map Char.toLower == "found:".toList

/-- Leftmost match of the JS regex `FOUND:` then `\s*(.+)` with the `i`
flag, returning the capture group. -/
def findFoundCapture : List Char → Option (List Char)
  | [] => none
  | c :: cs =>
    match (if foundColonAt (c :: cs) then matchWsDotPlus ((c :: cs).drop 6)
           else none) with
    | some cap => some cap
    | none => findFoundCapture cs

/-- JS `String.prototype.trim` over the same whitespace class. -/
def jsTrim (cs : List Char) : List Char :=
  ((cs.dropWhile jsWhitespace).reverse.dropWhile jsWhitespace).reverse

/-- `object.file.match(/FOUND:\s*(.+)/i)` followed by `match[1].trim()`
(`server.js` lines 260-261). -/
def jsFoundMatch (s : String) : Option String :=
  (findFoundCapture s.toList).map (fun cap => String.mk (jsTrim cap))

/-- Condition `hasViruses` (`server.js` lines 239-240). -/
def hasViruses (o : RawObject) : Bool :=
  (match o.viruses with
   | some l => decide (0 < l.length)
   | none => false)
  || (o.virus.truthy && decide (0 < o.virus.len))

/-- Condition `isInfectedFlag` (`server.js` lines 241-244). -/
def isInfectedFlag (o : RawObject) : Bool :=
  o.isInfected == .bool true || o.isInfected == .str "true"
    || o.isInfected == .num 1 || o.infected == .bool true

/-- Condition `hasVirusInName` (`server.js` lines 247-248). -/
def hasVirusInName (o : RawObject) : Bool :=
  match o.file with
  | some f => jsIncludes f "FOUND" || jsIncludes f "Infected"
  | none => false

/-- Combined infection verdict (`server.js` line 250). -/
def isInfectedComputed (o : RawObject) : Bool :=
  isInfectedFlag o || hasViruses o || hasVirusInName o

/-- Threat-name extraction from the possible locations
(`server.js` lines 253-262). -/
def extractViruses (o : RawObject) : List String :=
  match o.viruses with
  | some l => l
  | none =>
    if o.virus.truthy then
      match o.virus with
      | .arr l => l
      | .str s => [s]
      | .undef => []
    else if hasVirusInName o then
      match o.file with
      | some f =>
        match jsFoundMatch f with
        | some name => [name]
        | none => []
      | none => []
    else []

/-- Normalized scan verdict resolved by the `scanStream` callback. -/
structure ScanResult where
  isInfected : Bool
  viruses : List String
  method : String
  needsFallback : Bool
  rawResult : RawObject
  deriving DecidableEq, Repr

/-- Interpretation performed by the `scanStream` callback on its success
path (`server.js` lines 221-279): the `UNKNOWN COMMAND` probe first, then
the infection verdict, then threat-name normalization with the synthesized
`Threat detected` label when infection is indicated but no name was
extracted. -/
def interpretResult (o : RawObject) : ScanResult :=
  if o.resultString == some "UNKNOWN COMMAND" then
    { isInfected := false, viruses := [],
      method := "clamdscan (stream - failed)", needsFallback := true,
      rawResult := o }
  else
    let inf := isInfectedComputed o
    let vs := extractViruses o
    let vs2 := if inf && vs.length == 0 then vs ++ ["Threat detected"] else vs
    { isInfected := inf, viruses := vs2, method := "clamdscan (stream)",
      needsFallback := false, rawResult := o }

/-- C5: a response whose result string is `UNKNOWN COMMAND` is interpreted
with `needsFallback = true`, `infected = false`, an empty threat list and
the method tag naming the failed streaming attempt; and no interpreted
result ever combines `needsFallback = true` with `infected = true`. -/
theorem unknown_command_fallback_c5 (o : RawObject)
    (h : o.resultString = some "UNKNOWN COMMAND") :
    interpretResult o
      = { isInfected := false, viruses := [],
          method := "clamdscan (stream - failed)", needsFallback := true,
          rawResult := o }
    ∧ ∀ o2 : RawObject, (interpretResult o2).needsFallback = true →
        (interpretResult o2).isInfected = false := by
  constructor
  · unfold interpretResult
    rw [h]
    simp
  · intro o2 h2
    unfold interpretResult at h2 ⊢
    by_cases hc : (o2.resultString == some "UNKNOWN COMMAND") = true
    · simp [hc]
    · simp only [Bool.not_eq_true] at hc
      simp [hc] at h2

/-- Response object for the C5 witness. -/
def c5ObjWitness : RawObject :=
  { resultString := some "UNKNOWN COMMAND", isInfected := .undef,
    infected := .undef, viruses := none, virus := .undef, file := none }

theorem unknown_command_fallback_c5_witness :
    c5ObjWitness.resultString = some "UNKNOWN COMMAND"
    ∧ interpretResult c5ObjWitness
        = { isInfected := false, viruses := [],
            method := "clamdscan (stream - failed)", needsFallback := true,
            rawResult := c5ObjWitness } :=
  ⟨rfl, (unknown_command_fallback_c5 c5ObjWitness rfl).1⟩

/-- C6: an interpreted result that reports infection always carries a
non-empty threat list; and when infection is indicated while extraction
produced no names, the list is exactly the single synthesized label
`Threat detected`. -/
theorem infected_nonempty_threats_c6 (o : RawObject) :
    ((interpretResult o).isInfected = true → (interpretResult o).viruses ≠ [])
    ∧ (o.resultString ≠ some "UNKNOWN COMMAND" →
        isInfectedComputed o = true → extractViruses o = [] →
        (interpretResult o).viruses = ["Threat detected"]) := by
  constructor
  · intro hinf
    unfold interpretResult at hinf ⊢
    by_cases hc : (o.resultString == some "UNKNOWN COMMAND") = true
    · simp [hc] at hinf
    · simp only [Bool.not_eq_true] at hc
      simp only [hc, Bool.false_eq_true, if_false] at hinf ⊢
      cases hvs : extractViruses o with
      | nil => simp [hinf, hvs]
      | cons a l => simp [hinf, hvs]
  · intro hrs hinf hvs
    have hc : (o.resultString == some "UNKNOWN COMMAND") = false := by
      simpa using hrs
    unfold interpretResult
    simp [hc, hinf, hvs]

/-- Response object for the C6 witness: infection is flagged explicitly but
no threat-name field is present. -/
def c6ObjWitness : RawObject :=
  { resultString := none, isInfected := .bool true, infected := .undef,
    viruses := none, virus := .undef, file := none }

theorem infected_nonempty_threats_c6_witness :
    (c6ObjWitness.resultString ≠ some "UNKNOWN COMMAND"
      ∧ isInfectedComputed c6ObjWitness = true
      ∧ extractViruses c6ObjWitness = [])
    ∧ (interpretResult c6ObjWitness).viruses = ["Threat detected"] :=
  ⟨⟨by decide, by decide, by decide⟩,
   (infected_nonempty_threats_c6 c6ObjWitness).2 (by decide) (by decide)
     (by decide)⟩

/-- Response object for the C7 witness: the EICAR marker embedded in the
filename-like field is the only sign of infection. -/
def c7EicarObject : RawObject :=
  { resultString := none, isInfected := .undef, infected := .undef,
    viruses := none, virus := .undef, file := some "FOUND: EICAR-Test-File" }

/-- C7: with no explicit infected flag and no virus-name collection, a
`FOUND` token in the `file` field alone classifies the response infected,
and the threat list comes from the case-insensitive `FOUND:` + optional
whitespace + name capture, trimmed (with the generic label when the capture
is absent); on `"FOUND: EICAR-Test-File"` this yields exactly
`["EICAR-Test-File"]`. -/
theorem found_in_filename_c7 (o : RawObject) (f : String)
    (hrs : o.resultString ≠ some "UNKNOWN COMMAND")
    (hflag : o.isInfected = .undef) (hinf : o.infected = .undef)
    (hvs : o.viruses = none) (hv : o.virus = .undef)
    (hfile : o.file = some f) (htok : jsIncludes f "FOUND" = true) :
    ((interpretResult o).isInfected = true
      ∧ (interpretResult o).viruses
          = (match jsFoundMatch f with
             | some name => [name]
             | none => ["Threat detected"]))
    ∧ interpretResult c7EicarObject
        = { isInfected := true, viruses := ["EICAR-Test-File"],
            method := "clamdscan (stream)", needsFallback := false,
            rawResult := c7EicarObject } := by
  have hc : (o.resultString == some "UNKNOWN COMMAND") = false := by
    simpa using hrs
  have hname : hasVirusInName o = true := by
    unfold hasVirusInName
    rw [hfile]
    simp [htok]
  have hinfc : isInfectedComputed o = true := by
    unfold isInfectedComputed
    simp [hname]
  have hext : extractViruses o
      = (match jsFoundMatch f with
         | some name => [name]
         | none => []) := by
    unfold extractViruses
    rw [hvs, hv]
    simp only [VirusField.truthy, Bool.false_eq_true, if_false]
    rw [if_pos hname, hfile]
  refine ⟨⟨?_, ?_⟩, by decide⟩
  · unfold interpretResult
    simp [hc, hinfc]
  · unfold interpretResult
    simp only [hc, Bool.false_eq_true, if_false]
    rw [hext]
    cases hm : jsFoundMatch f with
    | some name => simp [hinfc]
    | none => simp [hinfc]

theorem found_in_filename_c7_witness :
    (c7EicarObject.resultString ≠ some "UNKNOWN COMMAND"
      ∧ c7EicarObject.file = some "FOUND: EICAR-Test-File"
      ∧ jsIncludes "FOUND: EICAR-Test-File" "FOUND" = true)
    ∧ (interpretResult c7EicarObject).isInfected = true
    ∧ (interpretResult c7EicarObject).viruses = ["EICAR-Test-File"] := by
  have h := found_in_filename_c7 c7EicarObject "FOUND: EICAR-Test-File"
    (by decide) rfl rfl rfl rfl rfl (by decide)
  refine ⟨⟨by decide, rfl, by decide⟩, h.1.1, ?_⟩
  rw [h.1.2]
  decide

/-- Response object for the C10 witness: the explicit flag is boolean
`false` yet the filename-like field carries a `FOUND` token. -/
def c10FalseFlagObject : RawObject :=
  { resultString := none, isInfected := .bool false, infected := .undef,
    viruses := none, virus := .undef,
    file := some "test.txt: Eicar-Test-Signature FOUND" }

/-- C10: outside the `UNKNOWN COMMAND` case the three infection markers
combine disjunctively — the verdict is infected exactly when the explicit
flag indicates infection, or a recognized virus-name field is non-empty, or
the `file` field contains a `FOUND` or `Infected` token; in particular an
explicit boolean `false` flag does not override a `FOUND` token. -/
theorem infection_markers_disjunctive_c10 (o : RawObject)
    (h : o.resultString ≠ some "UNKNOWN COMMAND") :
    ((interpretResult o).isInfected = true ↔
      ((o.isInfected = .bool true ∨ o.isInfected = .str "true"
          ∨ o.isInfected = .num 1 ∨ o.infected = .bool true)
        ∨ (∃ l, o.viruses = some l ∧ 0 < l.length)
        ∨ (o.virus.truthy = true ∧ 0 < o.virus.len)
        ∨ (∃ f, o.file = some f
             ∧ (jsIncludes f "FOUND" = true
                ∨ jsIncludes f "Infected" = true))))
    ∧ (interpretResult c10FalseFlagObject).isInfected = true := by
  have hc : (o.resultString == some "UNKNOWN COMMAND") = false := by
    simpa using h
  constructor
  · have hres : (interpretResult o).isInfected = isInfectedComputed o := by
      unfold interpretResult
      simp [hc]
    rw [hres]
    unfold isInfectedComputed isInfectedFlag hasViruses hasVirusInName
    cases hvs : o.viruses with
    | some l => cases hf : o.file <;> simp [hvs, hf, and_assoc, or_assoc]
    | none => cases hf : o.file <;> simp [hvs, hf, and_assoc, or_assoc]
  · decide

theorem infection_markers_disjunctive_c10_witness :
    (c10FalseFlagObject.resultString ≠ some "UNKNOWN COMMAND"
      ∧ c10FalseFlagObject.isInfected = .bool false
      ∧ jsIncludes "test.txt: Eicar-Test-Signature FOUND" "FOUND" = true)
    ∧ (interpretResult c10FalseFlagObject).isInfected = true :=
  ⟨⟨by decide, rfl, by decide⟩,
   (infection_markers_disjunctive_c10 c10FalseFlagObject (by decide)).2⟩

/-!
Retry controller `scanFile` (`server.js` lines 294-323) and connection
creation policy `_createConnection` (`server.js` lines 62-99).
-/

/-- Error objects as surfaced by the clamscan library / Node: an optional
`code` (e.g. `EPIPE`) and a message. -/
structure JsError where
  code : Option String
  message : String
  deriving DecidableEq, Repr

/-- Retry predicate of `scanFile` (`server.js` line 313). -/
def isTransient (e : JsError) : Bool :=
  e.code == some "EPIPE" || e.code == some "ECONNRESET"

/-- Message of the error `scanFile` throws when the stream result asks for
a fallback (`server.js` line 304). -/
def unknownCommandMessage : String :=
  "Stream scanning returned UNKNOWN COMMAND - ClamAV stream scanning may not be supported"

/-- Observable outcome of one `scanFile` run: the surfaced result, the
number of `scanWithStream` attempts made, and the backoff delays (ms)
awaited before each retry, in order. -/
structure ScanTrace where
  result : Except JsError ScanResult
  attemptsMade : Nat
  delays : List Nat

/-- Handling of a successful `scanWithStream` attempt at retry index
`retryIdx` (`server.js` lines 300-310): a result that asks for a fallback
is turned into a thrown error with no `code`, which the catch block cannot
retry (its code is neither EPIPE nor ECONNRESET) and rethrows. -/
def scanOkTrace (retryIdx : Nat) (r : ScanResult) : ScanTrace :=
  if r.needsFallback || r.rawResult.resultString == some "UNKNOWN COMMAND" then
    { result := .error { code := none, message := unknownCommandMessage },
      attemptsMade := retryIdx + 1, delays := [] }
  else
    { result := .ok r, attemptsMade := retryIdx + 1, delays := [] }

/-- `scanFile` (`server.js` lines 294-323) with `remaining` retries left in
the budget and current retry index `retryIdx` (`maxRetries = 2`, so the
top-level call has `remaining = 2`, `retryIdx = 0`); `attempts i` is the
outcome `scanWithStream` produces on the attempt with retry index `i`.  A
transient (EPIPE/ECONNRESET) failure with budget left waits
`1000 * (retryIdx + 1)` ms and recurses; anything else is surfaced. -/
def scanFileGo (attempts : Nat → Except JsError ScanResult) :
    Nat → Nat → ScanTrace
  | 0, retryIdx =>
    match attempts retryIdx with
    | .ok r => scanOkTrace retryIdx r
    | .error e =>
      { result := .error e, attemptsMade := retryIdx + 1, delays := [] }
  | rem + 1, retryIdx =>
    match attempts retryIdx with
    | .ok r => scanOkTrace retryIdx r
    | .error e =>
      if isTransient e then
        let t := scanFileGo attempts rem (retryIdx + 1)
        { result := t.result, attemptsMade := t.attemptsMade,
          delays := 1000 * (retryIdx + 1) :: t.delays }
      else
        { result := .error e, attemptsMade := retryIdx + 1, delays := [] }

/-- Top-level `scanFile` call (`retryCount = 0`, `maxRetries = 2`). -/
def scanFileModel (attempts : Nat → Except JsError ScanResult) : ScanTrace :=
  scanFileGo attempts 2 0

lemma scanOkTrace_attempts (retryIdx : Nat) (r : ScanResult) :
    (scanOkTrace retryIdx r).attemptsMade = retryIdx + 1 := by
  unfold scanOkTrace
  split <;> rfl

lemma scanFileGo_attempts_le (attempts : Nat → Except JsError ScanResult)
    (rem retryIdx : Nat) :
    (scanFileGo attempts rem retryIdx).attemptsMade ≤ retryIdx + rem + 1 := by
  induction rem generalizing retryIdx with
  | zero =>
    cases ho : attempts retryIdx with
    | ok r =>
      simp only [scanFileGo, ho, scanOkTrace_attempts]
      omega
    | error e =>
      simp only [scanFileGo, ho]
      omega
  | succ rem ih =>
    cases ho : attempts retryIdx with
    | ok r =>
      simp only [scanFileGo, ho, scanOkTrace_attempts]
      omega
    | error e =>
      by_cases ht : isTransient e = true
      · have hrec := ih (retryIdx + 1)
        simp only [scanFileGo, ho, ht, if_true]
        omega
      · simp only [Bool.not_eq_true] at ht
        simp only [scanFileGo, ho, ht, Bool.false_eq_true, if_false]
        omega

/-- C8 (amended): when every attempt fails with a transport error, the
retry controller makes exactly `1 + maxRetries = 3` scan attempts — and
never more than 3 on any input — awaits the retry-index-scaled delays
1000·1 and 1000·2 ms before the two retries, and surfaces the last
underlying error completely unchanged (no attempt-count annotation is
added to the surfaced error value; the count appears only in log output). -/
theorem retry_exhaustion_c8 (attempts : Nat → Except JsError ScanResult)
    (es : Nat → JsError)
    (hfail : ∀ i, i ≤ 2 → attempts i = .error (es i))
    (htr : ∀ i, i ≤ 2 → isTransient (es i) = true) :
    scanFileModel attempts
      = { result := .error (es 2), attemptsMade := 3, delays := [1000, 2000] }
    ∧ ∀ a : Nat → Except JsError ScanResult,
        (scanFileModel a).attemptsMade ≤ 3 := by
  constructor
  · have h0 := hfail 0 (by omega)
    have h1 := hfail 1 (by omega)
    have h2 := hfail 2 (by omega)
    have t0 := htr 0 (by omega)
    have t1 := htr 1 (by omega)
    have t2 := htr 2 (by omega)
    unfold scanFileModel
    unfold scanFileGo
    rw [h0]
    simp only [t0, if_true]
    unfold scanFileGo
    rw [h1]
    simp only [t1, if_true]
    unfold scanFileGo
    rw [h2]
  · intro a
    have := scanFileGo_attempts_le a 2 0
    simpa using this

/-- Transport error used in the C8 counterexample and witness. -/
def epipeError : JsError := { code := some "EPIPE", message := "write EPIPE" }

/-- Attempt oracle on which every `scanWithStream` call fails with EPIPE. -/
def epipeAttempts : Nat → Except JsError ScanResult :=
  fun _ => .error epipeError

/-- C8 counterexample to the claim as stated: after three EPIPE failures the
surfaced error is EXACTLY the underlying `write EPIPE` error object — its
message does not contain the attempt count 3 (nor any annotation), so the
surfaced error is not tagged with the number of attempts made. -/
theorem retry_error_not_tagged_c8 :
    (scanFileModel epipeAttempts).result = .error epipeError
    ∧ (scanFileModel epipeAttempts).attemptsMade = 3
    ∧ epipeError.message = "write EPIPE"
    ∧ charsContains epipeError.message.toList "3".toList = false :=
  ⟨rfl, rfl, rfl, by decide⟩

theorem retry_exhaustion_c8_witness :
    scanFileModel epipeAttempts
      = { result := .error epipeError, attemptsMade := 3,
          delays := [1000, 2000] }
    ∧ (scanFileModel epipeAttempts).attemptsMade ≤ 3 :=
  ⟨(retry_exhaustion_c8 epipeAttempts (fun _ => epipeError)
      (fun _ _ => rfl) (fun _ _ => rfl)).1,
   (retry_exhaustion_c8 epipeAttempts (fun _ => epipeError)
      (fun _ _ => rfl) (fun _ _ => rfl)).2 epipeAttempts⟩

/-- Observable outcome of one `_createConnection` run: the surfaced result
(first established connection, or the last underlying error), the absolute
index of the last attempt made (1-based) and the backoff delays (ms)
awaited between consecutive attempts, in order. -/
structure CreateTrace where
  result : Except JsError Conn
  attemptsMade : Nat
  delays : List Nat

/-- `_createConnection` retry loop (`server.js` lines 62-99) at absolute
attempt number `attempt` with `rem` further attempts allowed
(`maxRetries = 10`, `delay = 3000`, so the call starts at `attempt = 1`,
`rem = 9`): a failed attempt with budget left waits `3000 * attempt` ms and
moves on; the final failure is thrown as-is. -/
def createConnGo (outcomes : Nat → Except JsError Conn) :
    Nat → Nat → CreateTrace
  | 0, attempt =>
    match outcomes attempt with
    | .ok c => { result := .ok c, attemptsMade := attempt, delays := [] }
    | .error e => { result := .error e, attemptsMade := attempt, delays := [] }
  | rem + 1, attempt =>
    match outcomes attempt with
    | .ok c => { result := .ok c, attemptsMade := attempt, delays := [] }
    | .error _ =>
      let t := createConnGo outcomes rem (attempt + 1)
      { result := t.result, attemptsMade := t.attemptsMade,
        delays := 3000 * attempt :: t.delays }

/-- Top-level `_createConnection` call: attempts 1 through 10. -/
def createConnectionModel (outcomes : Nat → Except JsError Conn) :
    CreateTrace :=
  createConnGo outcomes 9 1

lemma createConnGo_bounds (outcomes : Nat → Except JsError Conn)
    (rem attempt : Nat) :
    attempt ≤ (createConnGo outcomes rem attempt).attemptsMade
    ∧ (createConnGo outcomes rem attempt).attemptsMade ≤ attempt + rem := by
  induction rem generalizing attempt with
  | zero =>
    unfold createConnGo
    cases outcomes attempt with
    | ok c => simp
    | error e => simp
  | succ rem ih =>
    unfold createConnGo
    cases outcomes attempt with
    | ok c => simp
    | error e =>
      have := ih (attempt + 1)
      constructor
      · simp only []
        omega
      · simp only []
        omega

lemma createConnGo_ok (outcomes : Nat → Except JsError Conn)
    (rem attempt : Nat) (c : Conn)
    (h : (createConnGo outcomes rem attempt).result = .ok c) :
    outcomes (createConnGo outcomes rem attempt).attemptsMade = .ok c
    ∧ ∀ i, attempt ≤ i → i < (createConnGo outcomes rem attempt).attemptsMade →
        ∃ e, outcomes i = .error e := by
  induction rem generalizing attempt with
  | zero =>
    cases ho : outcomes attempt with
    | ok c0 =>
      have hred : createConnGo outcomes 0 attempt
          = { result := .ok c0, attemptsMade := attempt, delays := [] } := by
        simp [createConnGo, ho]
      rw [hred] at h ⊢
      simp only [Except.ok.injEq] at h
      subst h
      refine ⟨ho, fun i hi1 hi2 => ?_⟩
      have hlt : i < attempt := hi2
      omega
    | error e =>
      have hred : createConnGo outcomes 0 attempt
          = { result := .error e, attemptsMade := attempt, delays := [] } := by
        simp [createConnGo, ho]
      rw [hred] at h
      simp at h
  | succ rem ih =>
    cases ho : outcomes attempt with
    | ok c0 =>
      have hred : createConnGo outcomes (rem + 1) attempt
          = { result := .ok c0, attemptsMade := attempt, delays := [] } := by
        simp [createConnGo, ho]
      rw [hred] at h ⊢
      simp only [Except.ok.injEq] at h
      subst h
      refine ⟨ho, fun i hi1 hi2 => ?_⟩
      have hlt : i < attempt := hi2
      omega
    | error e =>
      have hred : createConnGo outcomes (rem + 1) attempt
          = { result := (createConnGo outcomes rem (attempt + 1)).result,
              attemptsMade := (createConnGo outcomes rem (attempt + 1)).attemptsMade,
              delays := 3000 * attempt
                :: (createConnGo outcomes rem (attempt + 1)).delays } := by
        simp [createConnGo, ho]
      rw [hred] at h ⊢
      have h2 : (createConnGo outcomes rem (attempt + 1)).result = .ok c := h
      have hrec := ih (attempt + 1) h2
      refine ⟨hrec.1, fun i hi1 hi2 => ?_⟩
      have hlt2 : i < (createConnGo outcomes rem (attempt + 1)).attemptsMade :=
        hi2
      rcases Nat.eq_or_lt_of_le hi1 with rfl | hlt
      · exact ⟨e, ho⟩
      · exact hrec.2 i hlt hlt2

lemma createConnGo_error (outcomes : Nat → Except JsError Conn)
    (rem attempt : Nat) (e : JsError)
    (h : (createConnGo outcomes rem attempt).result = .error e) :
    (createConnGo outcomes rem attempt).attemptsMade = attempt + rem
    ∧ outcomes (attempt + rem) = .error e := by
  induction rem generalizing attempt with
  | zero =>
    cases ho : outcomes attempt with
    | ok c =>
      have hred : createConnGo outcomes 0 attempt
          = { result := .ok c, attemptsMade := attempt, delays := [] } := by
        simp [createConnGo, ho]
      rw [hred] at h
      simp at h
    | error e0 =>
      have hred : createConnGo outcomes 0 attempt
          = { result := .error e0, attemptsMade := attempt, delays := [] } := by
        simp [createConnGo, ho]
      rw [hred] at h ⊢
      simp only [Except.error.injEq] at h
      subst h
      exact ⟨by simp, by simpa using ho⟩
  | succ rem ih =>
    cases ho : outcomes attempt with
    | ok c =>
      have hred : createConnGo outcomes (rem + 1) attempt
          = { result := .ok c, attemptsMade := attempt, delays := [] } := by
        simp [createConnGo, ho]
      rw [hred] at h
      simp at h
    | error e0 =>
      have hred : createConnGo outcomes (rem + 1) attempt
          = { result := (createConnGo outcomes rem (attempt + 1)).result,
              attemptsMade := (createConnGo outcomes rem (attempt + 1)).attemptsMade,
              delays := 3000 * attempt
                :: (createConnGo outcomes rem (attempt + 1)).delays } := by
        simp [createConnGo, ho]
      rw [hred] at h ⊢
      have h2 : (createConnGo outcomes rem (attempt + 1)).result = .error e := h
      have hrec := ih (attempt + 1) h2
      constructor
      · have hg : (createConnGo outcomes rem (attempt + 1)).attemptsMade
            = attempt + (rem + 1) := by omega
        exact hg
      · have heq : attempt + (rem + 1) = attempt + 1 + rem := by omega
        rw [heq]
        exact hrec.2

lemma createConnGo_delays (outcomes : Nat → Except JsError Conn)
    (rem attempt : Nat) :
    (createConnGo outcomes rem attempt).delays
      = (List.range ((createConnGo outcomes rem attempt).attemptsMade
          - attempt)).map (fun i => 3000 * (attempt + i)) := by
  induction rem generalizing attempt with
  | zero =>
    unfold createConnGo
    cases outcomes attempt with
    | ok c => simp
    | error e => simp
  | succ rem ih =>
    unfold createConnGo
    cases outcomes attempt with
    | ok c => simp
    | error e =>
      have hb := (createConnGo_bounds outcomes rem (attempt + 1)).1
      have hk : (createConnGo outcomes rem (attempt + 1)).attemptsMade - attempt
          = ((createConnGo outcomes rem (attempt + 1)).attemptsMade
              - (attempt + 1)) + 1 := by omega
      show 3000 * attempt :: (createConnGo outcomes rem (attempt + 1)).delays
        = (List.range ((createConnGo outcomes rem (attempt + 1)).attemptsMade
            - attempt)).map (fun i => 3000 * (attempt + i))
      rw [ih (attempt + 1), hk, List.range_succ_eq_map, List.map_cons,
        List.map_map]
      refine List.cons_eq_cons.mpr ⟨by simp, ?_⟩
      congr 1
      funext i
      simp only [Function.comp_apply]
      omega

/-- C9: the connection-creation policy makes between 1 and 10 establishment
attempts and always terminates; the backoff awaited after the k-th failed
attempt is `3000 * k` ms (linearly increasing from the 3000 ms base); a
success outcome is the session established by the first successful attempt
(every earlier attempt failed); and an error outcome means the 10th attempt
was made and the call surfaces exactly its underlying error. -/
theorem create_connection_policy_c9 (outcomes : Nat → Except JsError Conn) :
    (1 ≤ (createConnectionModel outcomes).attemptsMade
      ∧ (createConnectionModel outcomes).attemptsMade ≤ 10)
    ∧ (createConnectionModel outcomes).delays
        = (List.range ((createConnectionModel outcomes).attemptsMade - 1)).map
            (fun i => 3000 * (1 + i))
    ∧ (∀ c, (createConnectionModel outcomes).result = .ok c →
        outcomes (createConnectionModel outcomes).attemptsMade = .ok c
        ∧ ∀ i, 1 ≤ i → i < (createConnectionModel outcomes).attemptsMade →
            ∃ e, outcomes i = .error e)
    ∧ ∀ e, (createConnectionModel outcomes).result = .error e →
        (createConnectionModel outcomes).attemptsMade = 10
        ∧ outcomes 10 = .error e := by
  refine ⟨?_, ?_, ?_, ?_⟩
  · have := createConnGo_bounds outcomes 9 1
    exact ⟨this.1, this.2⟩
  · exact createConnGo_delays outcomes 9 1
  · intro c h
    exact createConnGo_ok outcomes 9 1 c h
  · intro e h
    exact createConnGo_error outcomes 9 1 e h

/-- Outcome oracle for the C9 witness: attempts 1-3 fail with ECONNREFUSED,
attempt 4 establishes connection 42. -/
def c9Outcomes : Nat → Except JsError Conn :=
  fun i =>
    if i < 4 then
      .error { code := some "ECONNREFUSED",
               message := "connect ECONNREFUSED 127.0.0.1:4000" }
    else .ok 42

theorem create_connection_policy_c9_witness :
    (createConnectionModel c9Outcomes).attemptsMade ≤ 10
    ∧ (createConnectionModel c9Outcomes).result = .ok 42
    ∧ c9Outcomes (createConnectionModel c9Outcomes).attemptsMade = .ok 42
    ∧ (createConnectionModel c9Outcomes).delays = [3000, 6000, 9000] :=
  ⟨(create_connection_policy_c9 c9Outcomes).1.2,
   rfl,
   ((create_connection_policy_c9 c9Outcomes).2.2.1 42 rfl).1,
   rfl⟩

end ClamAV
